import Mathlib

/-!
Verification development for the taskmapr/ui-overlay core:
the component registry and tiered fuzzy resolver, the walkthrough
state machine with persistence (src/contexts/HighlightContext.tsx),
the SSE streaming normalizer (HttpAgentOrchestrator.handleSSEStream)
and the client-side retry / action-dispatch logic
(src/lib/createTaskMaprClient.tsx), shallowly embedded as pure
Lean functions over explicit state.
-/

namespace TaskMapr

/-! ## String utilities mirroring the JavaScript primitives used by the code -/

/-- ASCII model of the JavaScript whitespace class used by the regexes
in normalizeForMatching (space, tab, newline, carriage return,
vertical tab, form feed). -/
def jsIsSpace (c : Char) : Bool :=
  c == ' ' || c == '\t' || c == '\n' || c == '\r' || c.val == 11 || c.val == 12

/-- JavaScript String.prototype.trim: drop leading and trailing whitespace. -/
def jsTrim (s : String) : String :=
  String.mk (((s.data.dropWhile jsIsSpace).reverse.dropWhile jsIsSpace).reverse)

/-- Characters collapsed by the first replace in normalizeForMatching:
the regex class of hyphen, underscore and whitespace. -/
def isCollapseChar (c : Char) : Bool :=
  c == '-' || c == '_' || jsIsSpace c

/-- Worker for the first replace of normalizeForMatching; the flag says
whether the previous character was part of a collapsible run, in which
case further run characters emit nothing. -/
def collapseGo : Bool → List Char → List Char
  | _, [] => []
  | inRun, c :: rest =>
    if isCollapseChar c then
      if inRun then collapseGo true rest
      else ' ' :: collapseGo true rest
    else c :: collapseGo false rest

/-- The first replace of normalizeForMatching: every maximal run of
hyphens, underscores and whitespace becomes a single space. -/
def collapseRuns (l : List Char) : List Char :=
  collapseGo false l

/-- Characters kept by the second replace of normalizeForMatching
(everything outside lowercase letters, digits and whitespace is removed). -/
def keepChar (c : Char) : Bool :=
  ('a' ≤ c && c ≤ 'z') || ('0' ≤ c && c ≤ '9') || jsIsSpace c

/-- HighlightContext.tsx normalizeForMatching: lowercase, trim, collapse
runs of hyphen/underscore/whitespace to a single space, strip characters
outside lowercase alphanumerics and whitespace, trim again. -/
def normalizeForMatching (s : String) : String :=
  let s1 := String.mk (s.data.map Char.toLower)
  let s2 := jsTrim s1
  let s3 := String.mk (collapseRuns s2.data)
  let s4 := String.mk (s3.data.filter keepChar)
  jsTrim s4

/-- JavaScript hay.includes(needle): needle occurs as a contiguous
substring of hay (the empty needle always succeeds). -/
def strIncludes (hay needle : String) : Bool :=
  decide (needle.data <:+: hay.data)

/-- Split a character list at every character satisfying the predicate;
the accumulator carries the current token reversed. -/
def splitGo (p : Char → Bool) : List Char → List Char → List String
  | acc, [] => [String.mk acc.reverse]
  | acc, c :: rest =>
    if p c then String.mk acc.reverse :: splitGo p [] rest
    else splitGo p (c :: acc) rest

/-- Split a string at every character satisfying the predicate
(semantics of String.split: the empty string yields one empty piece). -/
def jsSplit (s : String) (p : Char → Bool) : List String :=
  splitGo p [] s.data

/-- JavaScript s.split on a whitespace regex, for trimmed inputs:
the nonempty whitespace-separated tokens, except that the empty string
splits to a single empty token. -/
def jsSplitWs (s : String) : List String :=
  let toks := (jsSplit s jsIsSpace).filter (fun t => t.length > 0)
  if toks.isEmpty then [""] else toks

/-! ## The component registry -/

/-- HighlightableComponent from src/types.ts as consumed by the resolver:
the DOM element is an externally owned handle, modelled as a number. -/
structure HComp where
  id : String
  name : String
  description : Option String
  keywords : Option (List String)
  element : Nat
  deriving Repr, DecidableEq

/-- The selector highlightComponent builds around a resolved component. -/
def selectorFor (c : HComp) : String :=
  "[data-highlight-id=\"" ++ c.id ++ "\"]"

/-- HighlightContext.tsx registerComponent: a JavaScript Map update that
returns the previous mapping unchanged when an entry with the same id
already has the same element, name and (JSON-stringified) keywords;
otherwise it sets the entry (replacing in place, or appending a new id).
The registry is the Map in iteration (insertion) order. -/
def registerComponent (comps : List HComp) (c : HComp) : List HComp :=
  match comps.find? (fun e => e.id == c.id) with
  | some existing =>
    if existing.element == c.element && existing.name == c.name
        && existing.keywords == c.keywords then
      comps
    else
      comps.map (fun e => if e.id == c.id then c else e)
  | none => comps ++ [c]

/-- unregisterComponent: delete the entry with the given id, no error if absent. -/
def unregisterComponent (comps : List HComp) (id : String) : List HComp :=
  comps.filter (fun e => !(e.id == id))

/-! ## The tiered fuzzy resolver (HighlightContext.tsx findComponent) -/

/-- Tier 6 helper: the query words of the normalized query
(split on whitespace, empties dropped). -/
def queryWords (nq : String) : List String :=
  (jsSplit nq jsIsSpace).filter (fun w => w.length > 0)

/-- Tier 6 helper: the union of a component's normalized keywords and the
words of its normalized name and id, exactly as allWords in the source
(the name/id splits do not drop empty tokens). -/
def allWords (c : HComp) : List String :=
  (match c.keywords with
   | some kws => kws.map normalizeForMatching
   | none => []) ++
  jsSplitWs (normalizeForMatching c.name) ++
  jsSplitWs (normalizeForMatching c.id)

/-- Tier 1: normalized query equals normalized id. -/
def tierNormalizedId (nq : String) (c : HComp) : Bool :=
  normalizeForMatching c.id == nq

/-- Tier 2: normalized query equals normalized name. -/
def tierNormalizedName (nq : String) (c : HComp) : Bool :=
  normalizeForMatching c.name == nq

/-- Tier 3: the raw query is the component's id verbatim (comps.get(query)). -/
def tierVerbatimId (query : String) (c : HComp) : Bool :=
  c.id == query

/-- Tier 4: normalized name contains the normalized query. -/
def tierNameContains (nq : String) (c : HComp) : Bool :=
  strIncludes (normalizeForMatching c.name) nq

/-- Tier 5: some normalized keyword equals the normalized query
(false when the component has no keyword list). -/
def tierKeywordEq (nq : String) (c : HComp) : Bool :=
  match c.keywords with
  | some kws => kws.any (fun kw => normalizeForMatching kw == nq)
  | none => false

/-- Tier 6: the query has at least two words and every query word is a
substring of, or a superstring of, some word of the component's
keywords/name/id union. -/
def tierMultiWord (nq : String) (c : HComp) : Bool :=
  let qws := queryWords nq
  decide (qws.length > 1) &&
    qws.all (fun qw =>
      (allWords c).any (fun cw => strIncludes cw qw || strIncludes qw cw))

/-- Tier 7: some normalized keyword contains the normalized query. -/
def tierKeywordContains (nq : String) (c : HComp) : Bool :=
  match c.keywords with
  | some kws => kws.any (fun kw => strIncludes (normalizeForMatching kw) nq)
  | none => false

/-- Tier 8: the description is present and nonempty (JavaScript truthiness)
and its normalization contains the normalized query. -/
def tierDescContains (nq : String) (c : HComp) : Bool :=
  match c.description with
  | some d => !d.isEmpty && strIncludes (normalizeForMatching d) nq
  | none => false

/-- HighlightContext.tsx findComponent: eight sequential scans of the
registry in iteration order, each returning its first hit. -/
def findComponent (comps : List HComp) (query : String) : Option HComp :=
  let nq := normalizeForMatching query
  (comps.find? (tierNormalizedId nq)).orElse fun _ =>
  (comps.find? (tierNormalizedName nq)).orElse fun _ =>
  (comps.find? (tierVerbatimId query)).orElse fun _ =>
  (comps.find? (tierNameContains nq)).orElse fun _ =>
  (comps.find? (tierKeywordEq nq)).orElse fun _ =>
  (comps.find? (tierMultiWord nq)).orElse fun _ =>
  (comps.find? (tierKeywordContains nq)).orElse fun _ =>
  comps.find? (tierDescContains nq)

/-- The eight tier predicates in the fixed evaluation order of the source. -/
def tierList (query : String) : List (HComp → Bool) :=
  let nq := normalizeForMatching query
  [tierNormalizedId nq, tierNormalizedName nq, tierVerbatimId query,
   tierNameContains nq, tierKeywordEq nq, tierMultiWord nq,
   tierKeywordContains nq, tierDescContains nq]

/-- First hit of the first non-empty tier: the reference semantics of the
tier cascade, parameterized by a list of tier predicates. -/
def firstHit (preds : List (HComp → Bool)) (comps : List HComp) : Option HComp :=
  match preds with
  | [] => none
  | p :: ps => (comps.find? p).orElse fun _ => firstHit ps comps

/-! ## The walkthrough engine (HighlightContext.tsx provider state) -/

/-- WalkthroughStep from src/types.ts; optional fields keep their
JavaScript optionality, and waitForClick defaults to true via the
source's test step.waitForClick !== false. -/
structure WalkthroughStep where
  query : String
  page : Option String
  duration : Option Nat
  waitForClick : Option Bool
  deriving Repr, DecidableEq

/-- step.waitForClick !== false: true when absent or true. -/
def stepWaitForClick (st : WalkthroughStep) : Bool :=
  st.waitForClick != some false

/-- JavaScript truthiness of the optional duration (undefined and 0 are falsy). -/
def durTruthy (d : Option Nat) : Bool :=
  match d with
  | some n => n != 0
  | none => false

/-- The in-memory Walkthrough; callbacks are modelled by presence flags,
their invocations are recorded in the event trace. -/
structure Walkthrough where
  id : String
  steps : List WalkthroughStep
  currentStepIndex : Nat
  hasOnComplete : Bool
  hasOnStepChange : Bool
  deriving Repr, DecidableEq

/-- The persisted subset written to the localStorage slot. -/
structure SavedWalkthrough where
  id : String
  steps : List WalkthroughStep
  currentStepIndex : Nat
  deriving Repr, DecidableEq

/-- Observable callback invocations and warnings of the engine. -/
inductive WEvent where
  | onComplete
  | onStepChange (index : Nat) (step : WalkthroughStep)
  | warnNotFound (query : String)
  deriving Repr, DecidableEq

/-- Pending callbacks of the untracked setTimeout calls of the engine:
the settle delays of start/resume/navigation (whose body resolves and
highlights a step), and the auto-advance calls of progressWalkthrough. -/
inductive TimerAction where
  | settle (step : WalkthroughStep)
  | autoAdvance
  deriving Repr, DecidableEq

/-- The provider state: applied highlight selectors, the per-selector
auto-expiry timers of the timeouts map, the untracked pending setTimeout
callbacks, the registry, the active walkthrough, the storage slot, the
current path and the event trace. -/
structure EngineState where
  highlighted : List String
  expiryTimers : List (String × Nat)
  pending : List (Nat × TimerAction)
  components : List HComp
  active : Option Walkthrough
  storage : Option SavedWalkthrough
  currentPath : String
  trace : List WEvent
  deriving Repr, DecidableEq

/-- highlight(selector, duration): add the selector, replace any pending
expiry timer owned by it, and schedule auto-removal when the duration is
a truthy positive number. -/
def highlightOp (s : EngineState) (sel : String) (duration : Option Nat) : EngineState :=
  let hl := if s.highlighted.contains sel then s.highlighted else s.highlighted ++ [sel]
  let timers := s.expiryTimers.filter (fun p => p.1 != sel)
  match duration with
  | some d =>
    if d > 0 then { s with highlighted := hl, expiryTimers := timers ++ [(sel, d)] }
    else { s with highlighted := hl, expiryTimers := timers }
  | none => { s with highlighted := hl, expiryTimers := timers }

/-- unhighlight(selector): drop the selector and cancel its expiry timer. -/
def unhighlightOp (s : EngineState) (sel : String) : EngineState :=
  { s with highlighted := s.highlighted.filter (fun x => x != sel),
           expiryTimers := s.expiryTimers.filter (fun p => p.1 != sel) }

/-- clearAll(): drop every applied selector and cancel every timer of the
timeouts map (the untracked pending setTimeouts are not touched). -/
def clearAllOp (s : EngineState) : EngineState :=
  { s with highlighted := [], expiryTimers := [] }

/-- highlightComponent(query, duration): resolve, then tag the element and
highlight its data-attribute selector; returns the success flag. -/
def highlightComponentOp (s : EngineState) (query : String) (duration : Option Nat) :
    EngineState × Bool :=
  match findComponent s.components query with
  | none => (s, false)
  | some c => (highlightOp s (selectorFor c) duration, true)

/-- The shared body of the settle-delay setTimeouts of startWalkthrough,
the resume effect and the navigation effect: resolve and highlight the
step; on failure only a warning is logged, on success an auto-advance
timer is scheduled when the step does not wait for a click and has a
truthy duration. -/
def settleBody (s : EngineState) (step : WalkthroughStep) : EngineState :=
  let waitForClick := stepWaitForClick step
  let duration := if waitForClick then none else step.duration
  match findComponent s.components step.query with
  | none => { s with trace := s.trace ++ [WEvent.warnNotFound step.query] }
  | some c =>
    let s1 := highlightOp s (selectorFor c) duration
    if !waitForClick && durTruthy duration then
      { s1 with pending := s1.pending ++ [(duration.getD 0, TimerAction.autoAdvance)] }
    else s1

/-- The tail of progressWalkthrough after index increment and persist:
either wait for navigation, or notify, resolve and highlight the next
step, scheduling the 1000ms grace auto-advance on resolution failure or
the duration auto-advance for non-click steps. -/
def progressStepEval (s : EngineState) (hasOnStepChange : Bool) (nextIndex : Nat)
    (nextStep : WalkthroughStep) : EngineState :=
  if nextStep.page.getD "/" != s.currentPath then s
  else
    let s3 := if hasOnStepChange then
        { s with trace := s.trace ++ [WEvent.onStepChange nextIndex nextStep] }
      else s
    let waitForClick := stepWaitForClick nextStep
    let duration := if waitForClick then none else nextStep.duration
    match findComponent s3.components nextStep.query with
    | none =>
      { s3 with trace := s3.trace ++ [WEvent.warnNotFound nextStep.query],
                pending := s3.pending ++ [(1000, TimerAction.autoAdvance)] }
    | some c =>
      let s4 := highlightOp s3 (selectorFor c) duration
      if !waitForClick && durTruthy duration then
        { s4 with pending := s4.pending ++ [(duration.getD 0, TimerAction.autoAdvance)] }
      else s4

/-- progressWalkthrough (the advance operation): clear highlights; at the
last step delete the storage slot, fire onComplete and go idle; otherwise
increment the index, persist the updated subset, then evaluate the next
step. -/
def progressWalkthrough (s : EngineState) : EngineState :=
  match s.active with
  | none => s
  | some wt =>
    let nextIndex := wt.currentStepIndex + 1
    let s1 := clearAllOp s
    if h : wt.steps.length ≤ nextIndex then
      let s2 := { s1 with storage := none }
      let s3 := if wt.hasOnComplete then { s2 with trace := s2.trace ++ [WEvent.onComplete] } else s2
      { s3 with active := none }
    else
      let nextStep := wt.steps.get ⟨nextIndex, by omega⟩
      let updated := { wt with currentStepIndex := nextIndex }
      let s2 := { s1 with active := some updated,
                          storage := some ⟨wt.id, wt.steps, nextIndex⟩ }
      progressStepEval s2 wt.hasOnStepChange nextIndex nextStep

/-- startWalkthrough(steps, callbacks): tear down any active walkthrough,
install the new one at index 0 and persist it; if step 0 targets another
page wait for navigation, otherwise fire onStepChange and schedule the
100ms settle timer that resolves and highlights step 0. The empty step
list (a TypeError in the source) is modelled as a no-op. -/
def startWalkthrough (s : EngineState) (newId : String) (steps : List WalkthroughStep)
    (hasOnComplete hasOnStepChange : Bool) : EngineState :=
  match steps with
  | [] => s
  | firstStep :: _ =>
    let s1 := match s.active with
      | some _ => { clearAllOp s with active := none }
      | none => s
    let wt : Walkthrough := ⟨newId, steps, 0, hasOnComplete, hasOnStepChange⟩
    let s2 := { s1 with active := some wt, storage := some ⟨newId, steps, 0⟩ }
    let targetPage := firstStep.page.getD "/"
    if targetPage != s2.currentPath then s2
    else
      let s3 := if hasOnStepChange then
          { s2 with trace := s2.trace ++ [WEvent.onStepChange 0 firstStep] }
        else s2
      { s3 with pending := s3.pending ++ [(100, TimerAction.settle firstStep)] }

/-- stopWalkthrough(walkthroughId?): when the id matches (or none is
given), delete the storage slot, clear highlights and expiry timers and
go idle; the untracked pending setTimeouts are left pending. -/
def stopWalkthrough (s : EngineState) (idOpt : Option String) : EngineState :=
  let idMatches := match idOpt, s.active with
    | some i, some wt => wt.id == i
    | some _, none => false
    | none, _ => true
  if !idMatches then s
  else
    let s1 := { s with storage := none }
    let s2 := clearAllOp s1
    { s2 with active := none }

/-- The mount effect resuming from storage: when a walkthrough is saved,
none is active, and the saved current step targets the page at bootstrap,
reconstruct the walkthrough without callbacks and schedule the 500ms
settle timer; otherwise the state (and the storage slot) is untouched.
An out-of-range saved index (a TypeError in the source) is a no-op. -/
def resumeFromStorage (s : EngineState) : EngineState :=
  match s.storage, s.active with
  | some saved, none =>
    if h : saved.currentStepIndex < saved.steps.length then
      let currentStep := saved.steps.get ⟨saved.currentStepIndex, h⟩
      let targetPage := currentStep.page.getD "/"
      if targetPage == s.currentPath then
        let resumed : Walkthrough := ⟨saved.id, saved.steps, saved.currentStepIndex, false, false⟩
        { s with active := some resumed,
                 pending := s.pending ++ [(500, TimerAction.settle currentStep)] }
      else s
    else s
  | _, _ => s

/-- The path-change watcher body: on an actual path change with an active
walkthrough whose current step targets the new path, clear highlights,
fire onStepChange and schedule the 500ms settle timer. -/
def handleLocationChange (s : EngineState) (newPath : String) : EngineState :=
  if newPath == s.currentPath then s
  else
    let s1 := { s with currentPath := newPath }
    match s1.active with
    | some wt =>
      if h : wt.currentStepIndex < wt.steps.length then
        let currentStep := wt.steps.get ⟨wt.currentStepIndex, h⟩
        if newPath == currentStep.page.getD "/" then
          let s2 := clearAllOp s1
          let s3 := if wt.hasOnStepChange then
              { s2 with trace := s2.trace ++ [WEvent.onStepChange wt.currentStepIndex currentStep] }
            else s2
          { s3 with pending := s3.pending ++ [(500, TimerAction.settle currentStep)] }
        else s1
      else s1
    | none => s1

/-- Fire the i-th untracked pending setTimeout: remove it and run its body. -/
def firePending (s : EngineState) (i : Nat) : EngineState :=
  match s.pending.get? i with
  | some (_, a) =>
    let s1 := { s with pending := s.pending.eraseIdx i }
    match a with
    | TimerAction.settle step => settleBody s1 step
    | TimerAction.autoAdvance => progressWalkthrough s1
  | none => s

/-- Fire the i-th highlight auto-expiry timer of the timeouts map. -/
def fireExpiry (s : EngineState) (i : Nat) : EngineState :=
  match s.expiryTimers.get? i with
  | some (sel, _) =>
    unhighlightOp { s with expiryTimers := s.expiryTimers.eraseIdx i } sel
  | none => s

/-! ## Agent actions and the client-side dispatch
(createTaskMaprClient.tsx streamingCallbacks.onActions) -/

/-- The action shapes dispatched by the client; optional payload fields
keep their JavaScript optionality. -/
inductive AgentAction where
  | navigate (path : Option String)
  | highlightAct (selectors : Option (List String)) (duration : Option Nat)
  | scrollTo (selector : Option String) (behavior : Option String)
  | click (selector : Option String)
  | other (tag : String)
  deriving Repr, DecidableEq

/-- Which host action handlers are configured. -/
structure ActionHandlersCfg where
  navigate : Bool
  highlight : Bool
  scrollTo : Bool
  click : Bool
  deriving Repr, DecidableEq

/-- Observable effects of dispatching one action. -/
inductive Dispatch where
  | navigateHandler (path : String)
  | navigateFallback (path : String)
  | highlightHandler (selectors : List String) (duration : Option Nat)
  | highlightWarn
  | scrollToHandler (selector : String) (behavior : Option String)
  | clickHandler (selector : String)
  | unhandled (tag : String)
  deriving Repr, DecidableEq

/-- The switch of streamingCallbacks.onActions over one action: navigate
uses the handler when present and falls back to window.location
otherwise; highlight warns without a handler; scrollTo and click without
a handler do nothing; unknown tags are logged. -/
def dispatchAction (cfg : ActionHandlersCfg) (a : AgentAction) : List Dispatch :=
  match a with
  | AgentAction.navigate path =>
    match path with
    | some p => if cfg.navigate then [Dispatch.navigateHandler p] else [Dispatch.navigateFallback p]
    | none => []
  | AgentAction.highlightAct sels dur =>
    match sels with
    | some ss => if cfg.highlight then [Dispatch.highlightHandler ss dur] else [Dispatch.highlightWarn]
    | none => [Dispatch.highlightWarn]
  | AgentAction.scrollTo sel behavior =>
    match sel with
    | some se => if cfg.scrollTo then [Dispatch.scrollToHandler se behavior] else []
    | none => []
  | AgentAction.click sel =>
    match sel with
    | some se => if cfg.click then [Dispatch.clickHandler se] else []
    | none => []
  | AgentAction.other tag => [Dispatch.unhandled tag]

/-- streamingCallbacks.onActions on a batch: dispatch each action only
when action handlers are configured and the batch is non-empty. -/
def dispatchActions (cfg : Option ActionHandlersCfg) (acts : List AgentAction) : List Dispatch :=
  match cfg with
  | some handlers =>
    if acts.isEmpty then [] else acts.flatMap (dispatchAction handlers)
  | none => []

/-! ## The SSE stream normalizer (HttpAgentOrchestrator.handleSSEStream) -/

/-- Parsed SSE events (the JSON shapes after the data-line parse);
malformed stands for a data line whose JSON.parse throws. -/
inductive SSEEvent where
  | textDelta (text : String)
  | reasoningStart
  | reasoningDelta (text : String)
  | reasoningDone
  | toolCallStarted (name : String)
  | toolCallCompleted (name : String)
  | actionsEvt (acts : Option (List AgentAction))
  | metadataEvt
  | errorEvt (message : Option String)
  | complete (sessionId : Option String)
  | heartbeat
  | unknown (tag : String)
  | malformed
  deriving Repr, DecidableEq

/-- Callback invocations and console warnings observable during streaming. -/
inductive StreamCB where
  | onTextDelta (text : String)
  | onReasoningStart
  | onReasoningDelta (text : String)
  | onReasoningDone
  | onToolCallStarted (name : String)
  | onToolCallCompleted (name : String)
  | onActions (acts : List AgentAction)
  | onMetadata
  | onError (message : String)
  | onComplete (sessionId : Option String)
  | warnUnknownEvent (tag : String)
  | warnParseFailure
  deriving Repr, DecidableEq

/-- The mutable locals of handleSSEStream plus the callback trace. -/
structure StreamState where
  fullContent : String
  sessionId : Option String
  actions : List AgentAction
  calls : List StreamCB
  deriving Repr, DecidableEq

/-- The switch of handleSSEStream over one parsed event. The error case
fires onError and then throws (returned as the exceptional branch);
a malformed data line throws from JSON.parse before the switch runs. -/
def runSwitch (st : StreamState) (e : SSEEvent) : Except StreamState StreamState :=
  match e with
  | SSEEvent.malformed => Except.error st
  | SSEEvent.textDelta t =>
    Except.ok { st with fullContent := st.fullContent ++ t,
                        calls := st.calls ++ [StreamCB.onTextDelta t] }
  | SSEEvent.reasoningStart => Except.ok { st with calls := st.calls ++ [StreamCB.onReasoningStart] }
  | SSEEvent.reasoningDelta t => Except.ok { st with calls := st.calls ++ [StreamCB.onReasoningDelta t] }
  | SSEEvent.reasoningDone => Except.ok { st with calls := st.calls ++ [StreamCB.onReasoningDone] }
  | SSEEvent.toolCallStarted n => Except.ok { st with calls := st.calls ++ [StreamCB.onToolCallStarted n] }
  | SSEEvent.toolCallCompleted n => Except.ok { st with calls := st.calls ++ [StreamCB.onToolCallCompleted n] }
  | SSEEvent.actionsEvt acts =>
    match acts with
    | some l =>
      Except.ok { st with actions := st.actions ++ l,
                          calls := st.calls ++ [StreamCB.onActions l] }
    | none => Except.ok st
  | SSEEvent.metadataEvt => Except.ok { st with calls := st.calls ++ [StreamCB.onMetadata] }
  | SSEEvent.errorEvt msg =>
    let m := match msg with
      | some t => if t.isEmpty then "Unknown error" else t
      | none => "Unknown error"
    Except.error { st with calls := st.calls ++ [StreamCB.onError m] }
  | SSEEvent.complete sid =>
    Except.ok { st with sessionId := sid, calls := st.calls ++ [StreamCB.onComplete sid] }
  | SSEEvent.heartbeat => Except.ok st
  | SSEEvent.unknown tag => Except.ok { st with calls := st.calls ++ [StreamCB.warnUnknownEvent tag] }

/-- One data line of the stream loop: the whole parse-and-switch runs
inside try/catch, so any exceptional outcome is logged as a parse
failure and the loop continues with the next event. -/
def processEvent (st : StreamState) (e : SSEEvent) : StreamState :=
  match runSwitch st e with
  | Except.ok st' => st'
  | Except.error st' => { st' with calls := st'.calls ++ [StreamCB.warnParseFailure] }

/-- handleSSEStream over a whole event sequence: fold the per-event
processing from the empty state and build the final assistant message,
whose content falls back to a placeholder when nothing accumulated. -/
def handleSSEStream (events : List SSEEvent) : StreamState × String :=
  let st := events.foldl processEvent ⟨"", none, [], []⟩
  (st, if st.fullContent.isEmpty then "No response received" else st.fullContent)

/-- The actions of every actions event of a stream, in order. -/
def collectActionsEvents : List SSEEvent → List (List AgentAction)
  | [] => []
  | SSEEvent.actionsEvt (some l) :: rest => l :: collectActionsEvents rest
  | _ :: rest => collectActionsEvents rest

/-- The dispatches performed by the client while streaming: the
orchestrator fires onActions per actions event, and the client's
onActions callback dispatches that batch. -/
def clientStreamDispatches (cfg : Option ActionHandlersCfg) (events : List SSEEvent) :
    List Dispatch :=
  (collectActionsEvents events).flatMap (dispatchActions cfg)

/-! ## Stripping inline ACTIONS control blocks
(createTaskMaprClient.tsx onTextDelta and final-content cleanup) -/

/-- Case-insensitive character comparison for the pattern match. -/
def ciEq (a b : Char) : Bool := a.toLower == b.toLower

/-- Whether the pattern occurs case-insensitively at the head of the list. -/
def ciStartsWith (pat l : List Char) : Bool :=
  match pat, l with
  | [], _ => true
  | _ :: _, [] => false
  | p :: ps, c :: cs => ciEq p c && ciStartsWith ps cs

/-- Index of the first case-insensitive occurrence of the pattern. -/
def findCI (pat : List Char) : List Char → Option Nat
  | [] => if ciStartsWith pat [] then some 0 else none
  | c :: rest =>
    if ciStartsWith pat (c :: rest) then some 0
    else (findCI pat rest).map (fun n => n + 1)

/-- The opening token of an inline control block. -/
def openTok : List Char := "[ACTIONS]".data

/-- The closing token of an inline control block. -/
def closeTok : List Char := "[/ACTIONS]".data

/-- Fuel-driven core of the global non-greedy replace: repeatedly find
the leftmost opening token, the nearest closing token after it, drop
everything between them inclusive, and continue after the match; with no
closing token after the leftmost opening token the regex has no further
match and the rest is kept. The fuel (the string length at the top call)
bounds the number of removed blocks. -/
def stripCore : Nat → List Char → List Char
  | 0, l => l
  | fuel + 1, l =>
    match findCI openTok l with
    | none => l
    | some i =>
      let after := l.drop (i + openTok.length)
      match findCI closeTok after with
      | none => l
      | some j => l.take i ++ stripCore fuel (after.drop (j + closeTok.length))

/-- content.replace(actionsBlockPattern, '').trim() from the client:
remove every inline ACTIONS control block and trim the result. -/
def stripActionsBlocks (s : String) : String :=
  jsTrim (String.mk (stripCore s.data.length s.data))

/-! ## fetchWithRetry and the direct-API branch of sendMessage
(createTaskMaprClient.tsx) -/

/-- Outcome of one fetch call: a rejection (network failure) or a
response with its ok flag and status code. -/
inductive FetchOutcome where
  | netError (msg : String)
  | response (ok : Bool) (status : Nat)
  deriving Repr, DecidableEq

/-- Result of the retrying fetch, with the number of fetch calls made and
the backoff delays awaited between them. -/
structure RetryResult where
  result : Except String (Bool × Nat)
  calls : Nat
  delays : List Nat
  deriving Repr

/-- fetchWithRetry at a given attempt number against an environment
giving the outcome of each call: a resolved response of any status is
returned at once; a rejection is rethrown at the attempt limit and
otherwise retried after a delay of backoff times 2 to the attempt-1. -/
def fetchWithRetryAux (env : Nat → FetchOutcome) (attemptsCfg backoff : Nat)
    (attempt : Nat) : RetryResult :=
  match env attempt with
  | FetchOutcome.response ok status => ⟨Except.ok (ok, status), 1, []⟩
  | FetchOutcome.netError msg =>
    if h : attemptsCfg ≤ attempt then ⟨Except.error msg, 1, []⟩
    else
      let d := backoff * 2 ^ (attempt - 1)
      let r := fetchWithRetryAux env attemptsCfg backoff (attempt + 1)
      ⟨r.result, r.calls + 1, d :: r.delays⟩
termination_by attemptsCfg - attempt
decreasing_by omega

/-- fetchWithRetry as called by sendMessage: attempt numbering starts at
1, and zero-valued settings take the JavaScript or-defaults (1 attempt,
1000ms backoff). -/
def fetchWithRetry (env : Nat → FetchOutcome) (attemptsCfg backoff : Nat) : RetryResult :=
  fetchWithRetryAux env
    (if attemptsCfg == 0 then 1 else attemptsCfg)
    (if backoff == 0 then 1000 else backoff) 1

/-- The error surfaced by the direct-API branch of sendMessage: a fetch
rejection re-thrown with the TaskMapr prefix, or the Agent API error
thrown for a response that is not ok. -/
inductive DirectError where
  | transport (msg : String)
  | apiStatus (status : Nat)
  deriving Repr, DecidableEq

/-- The transport portion of the direct-API branch of sendMessage: a
rejection surfaced by fetchWithRetry propagates as a TaskMapr transport
error, and a response that is not ok is turned into an Agent API error
without any further fetch call. -/
def sendMessageDirectTransport (env : Nat → FetchOutcome) (attemptsCfg backoff : Nat) :
    Except DirectError Nat × RetryResult :=
  let r := fetchWithRetry env attemptsCfg backoff
  match r.result with
  | Except.error msg => (Except.error (DirectError.transport msg), r)
  | Except.ok (ok, status) =>
    if !ok then (Except.error (DirectError.apiStatus status), r)
    else (Except.ok status, r)

/-! ## Lemmas about the tier cascade -/

theorem firstHit_cons_some {p : HComp → Bool} {ps : List (HComp → Bool)}
    {comps : List HComp} {c : HComp} (h : comps.find? p = some c) :
    firstHit (p :: ps) comps = some c := by
  simp [firstHit, h, Option.orElse]

theorem firstHit_cons_none {p : HComp → Bool} {ps : List (HComp → Bool)}
    {comps : List HComp} (h : comps.find? p = none) :
    firstHit (p :: ps) comps = firstHit ps comps := by
  simp [firstHit, h, Option.orElse]

theorem findComponent_eq_firstHit (comps : List HComp) (q : String) :
    findComponent comps q = firstHit (tierList q) comps := by
  simp only [findComponent, tierList, firstHit]
  cases comps.find? (tierDescContains (normalizeForMatching q)) <;> rfl

/-- The result of the cascade is the first hit of the first tier whose
scan succeeds, every earlier tier having found nothing. -/
theorem firstHit_some_spec {ps : List (HComp → Bool)} {comps : List HComp}
    {c : HComp} (h : firstHit ps comps = some c) :
    ∃ i, ∃ hi : i < ps.length,
      comps.find? (ps.get ⟨i, hi⟩) = some c ∧
      ∀ j, ∀ hj : j < ps.length, j < i → comps.find? (ps.get ⟨j, hj⟩) = none := by
  induction ps with
  | nil => simp [firstHit] at h
  | cons p ps ih =>
    cases hf : comps.find? p with
    | some d =>
      rw [firstHit_cons_some hf] at h
      refine ⟨0, by simp, ?_, ?_⟩
      · simpa [hf] using h
      · intro j hj hj0; omega
    | none =>
      rw [firstHit_cons_none hf] at h
      obtain ⟨i, hi, hfind, hnone⟩ := ih h
      refine ⟨i + 1, by simpa using hi, by simpa using hfind, ?_⟩
      intro j hj hji
      cases j with
      | zero => simpa using hf
      | succ j' =>
        have hj' : j' < ps.length := by simp at hj; omega
        simpa using hnone j' hj' (by omega)

/-- The cascade misses exactly when every tier's scan misses. -/
theorem firstHit_eq_none_iff {ps : List (HComp → Bool)} {comps : List HComp} :
    firstHit ps comps = none ↔ ∀ p ∈ ps, comps.find? p = none := by
  induction ps with
  | nil => simp [firstHit]
  | cons p ps ih =>
    cases hf : comps.find? p with
    | some d =>
      rw [firstHit_cons_some hf]
      simp only [List.mem_cons]
      constructor
      · intro h; cases h
      · intro h
        have := h p (Or.inl rfl)
        rw [hf] at this; cases this
    | none =>
      rw [firstHit_cons_none hf]
      simp only [List.mem_cons, ih]
      constructor
      · intro h q hq
        cases hq with
        | inl he => subst he; exact hf
        | inr hm => exact h q hm
      · intro h q hq; exact h q (Or.inr hq)

/-- C1: for every registry and query, resolution follows the fixed
eight-tier order — the returned descriptor is the first hit (in
insertion order) of the first tier that matches at all; whenever any
descriptor matches tier 1 (normalized-id equality), the result is the
first tier-1 match in insertion order, regardless of how other
descriptors (for example tier-4 name-contains matches) are placed; and
resolution returns none exactly when all eight tiers miss. -/
theorem findComponent_tier_order (comps : List HComp) (q : String) :
    (∀ c, findComponent comps q = some c →
      ∃ i, ∃ hi : i < (tierList q).length,
        comps.find? ((tierList q).get ⟨i, hi⟩) = some c ∧
        ∀ j, ∀ hj : j < (tierList q).length, j < i →
          comps.find? ((tierList q).get ⟨j, hj⟩) = none) ∧
    ((∃ c ∈ comps, tierNormalizedId (normalizeForMatching q) c = true) →
      findComponent comps q = comps.find? (tierNormalizedId (normalizeForMatching q))) ∧
    (findComponent comps q = none ↔ ∀ p ∈ tierList q, comps.find? p = none) := by
  refine ⟨?_, ?_, ?_⟩
  · intro c hc
    rw [findComponent_eq_firstHit] at hc
    exact firstHit_some_spec hc
  · rintro ⟨c, hmem, hpred⟩
    rw [findComponent_eq_firstHit]
    cases hf : comps.find? (tierNormalizedId (normalizeForMatching q)) with
    | some d => exact firstHit_cons_some hf
    | none =>
      rw [List.find?_eq_none] at hf
      exact absurd hpred (by simpa using hf c hmem)
  · rw [findComponent_eq_firstHit]
    exact firstHit_eq_none_iff

/-- The scenario registry of the spec: a tier-1/5 target and a filler. -/
def homeTitleComp : HComp := ⟨"home-title", "Home Title", none, some ["welcome"], 0⟩

/-- A second registered descriptor, earlier in insertion order. -/
def otherComp : HComp := ⟨"other", "Other Thing", none, none, 1⟩

/-- A two-entry registry in insertion order. -/
def demoRegistry : List HComp := [otherComp, homeTitleComp]

/-- Witness for C1 at a concrete registry and query. -/
theorem findComponent_tier_order_witness :
    findComponent demoRegistry "home_title" =
      demoRegistry.find? (tierNormalizedId (normalizeForMatching "home_title")) :=
  (findComponent_tier_order demoRegistry "home_title").2.1
    ⟨homeTitleComp, by decide, by decide⟩

/-! ## C10: queries that normalize to the empty string -/

/-- Formalization of the claim's phrase "the first descriptor in
insertion order whose id does not normalize to empty", used to compare
the claim's description of the result against the code. -/
def firstNonEmptyIdDescriptor (comps : List HComp) : Option HComp :=
  comps.find? (fun c => !(normalizeForMatching c.id).isEmpty)

/-- A descriptor whose id normalizes to the empty string. -/
def bangComp : HComp := ⟨"!!", "x", none, none, 0⟩

/-- A descriptor whose id normalizes to itself. -/
def bComp : HComp := ⟨"b", "y", none, none, 1⟩

/-- C10 counterexample: with the registry [bangComp, bComp] and the query
"##" (normalizing to empty), resolution returns bangComp at tier 1 even
though the first descriptor whose id does not normalize to empty is
bComp and tiers 1-3 did not all fail — so the claim's description of the
returned descriptor is wrong, while a descriptor is still returned. -/
theorem emptyQuery_first_descriptor_counterexample :
    normalizeForMatching "##" = "" ∧
    findComponent [bangComp, bComp] "##" = some bangComp ∧
    firstNonEmptyIdDescriptor [bangComp, bComp] = some bComp ∧
    bangComp ≠ bComp ∧
    [bangComp, bComp].find? (tierNormalizedId (normalizeForMatching "##")) ≠ none := by
  decide

/-- The tier-4 name-contains test always succeeds against the empty
normalized query: every string contains the empty string. -/
theorem tierNameContains_empty (c : HComp) : tierNameContains "" c = true := by
  unfold tierNameContains strIncludes
  apply decide_eq_true
  have h : ("" : String).data = [] := rfl
  rw [h]
  exact List.nil_infix

/-- A scan with an always-true predicate returns the registry head. -/
theorem find?_of_all_true {p : HComp → Bool} {comps : List HComp}
    (h : ∀ c, p c = true) : comps.find? p = comps.head? := by
  cases comps with
  | nil => rfl
  | cons a as => simp [List.find?_cons_of_pos _ (h a)]

/-- C10 amended: for every non-empty registry, a query normalizing to
the empty string never resolves to none — the tier-4 name-contains test
matches every descriptor against the empty query — and when tiers 1-3
all miss, the first descriptor in insertion order is returned. -/
theorem findComponent_emptyQuery_total (comps : List HComp) (q : String)
    (hne : comps ≠ []) (hq : normalizeForMatching q = "") :
    (∃ c, findComponent comps q = some c) ∧
    (comps.find? (tierNormalizedId (normalizeForMatching q)) = none →
     comps.find? (tierNormalizedName (normalizeForMatching q)) = none →
     comps.find? (tierVerbatimId q) = none →
     findComponent comps q = comps.head?) := by
  have h4 : comps.find? (tierNameContains (normalizeForMatching q)) = comps.head? := by
    rw [hq]
    exact find?_of_all_true tierNameContains_empty
  have hhead : ∃ a, comps.head? = some a := by
    cases comps with
    | nil => exact absurd rfl hne
    | cons a as => exact ⟨a, rfl⟩
  obtain ⟨a, ha⟩ := hhead
  constructor
  · cases hfc : findComponent comps q with
    | some c => exact ⟨c, rfl⟩
    | none =>
      have hall : ∀ p ∈ tierList q, comps.find? p = none := by
        rw [findComponent_eq_firstHit] at hfc
        exact firstHit_eq_none_iff.mp hfc
      have hmem : tierNameContains (normalizeForMatching q) ∈ tierList q := by
        simp [tierList]
      have := hall _ hmem
      rw [h4, ha] at this
      cases this
  · intro h1 h2 h3
    rw [findComponent_eq_firstHit]
    show firstHit (tierList q) comps = comps.head?
    rw [tierList]
    rw [firstHit_cons_none h1, firstHit_cons_none h2, firstHit_cons_none h3]
    rw [ha]
    exact firstHit_cons_some (by rw [h4, ha])

/-- Witness for the amended C10 at a concrete registry and query. -/
theorem findComponent_emptyQuery_total_witness :
    (∃ c, findComponent [otherComp] "##" = some c) ∧
    findComponent [otherComp] "##" = [otherComp].head? := by
  have h := findComponent_emptyQuery_total [otherComp] "##" (by decide) (by decide)
  exact ⟨h.1, h.2 (by decide) (by decide) (by decide)⟩

/-! ## C9: idempotence of registerComponent -/

/-- After an in-place replace of the entries carrying the given id, the
scan for that id yields the replacement, provided some entry carried it. -/
theorem find?_map_replace (comps : List HComp) (c : HComp)
    (h : (comps.find? (fun e => e.id == c.id)).isSome) :
    (comps.map (fun e => if e.id == c.id then c else e)).find?
      (fun e => e.id == c.id) = some c := by
  induction comps with
  | nil => simp at h
  | cons a as ih =>
    cases ha : (a.id == c.id) with
    | true =>
      simp only [List.map, ha, if_true]
      exact List.find?_cons_of_pos _ (by simp)
    | false =>
      simp only [List.map, ha, if_false]
      rw [List.find?_cons_of_neg _ (by simp [ha])]
      apply ih
      rw [List.find?_cons_of_neg _ (by simp [ha])] at h
      exact h

/-- When an entry with the candidate's id is found and the guard on
element, name and keywords holds, registerComponent returns the mapping
itself (the source's no-op branch). -/
theorem registerComponent_noop (comps : List HComp) (c : HComp) (e : HComp)
    (hfind : comps.find? (fun x => x.id == c.id) = some e)
    (hguard : (e.element == c.element && e.name == c.name
      && e.keywords == c.keywords) = true) :
    registerComponent comps c = comps := by
  unfold registerComponent
  rw [hfind]
  simp [hguard]

/-- With no entry under the candidate's id, registerComponent appends. -/
theorem registerComponent_append (comps : List HComp) (c : HComp)
    (hfind : comps.find? (fun x => x.id == c.id) = none) :
    registerComponent comps c = comps ++ [c] := by
  unfold registerComponent
  rw [hfind]

/-- With an entry under the candidate's id failing the guard,
registerComponent replaces in place. -/
theorem registerComponent_replace (comps : List HComp) (c : HComp) (e : HComp)
    (hfind : comps.find? (fun x => x.id == c.id) = some e)
    (hguard : (e.element == c.element && e.name == c.name
      && e.keywords == c.keywords) = false) :
    registerComponent comps c = comps.map (fun x => if x.id == c.id then c else x) := by
  unfold registerComponent
  rw [hfind]
  simp [hguard]

/-- After any register of c, the scan for c.id finds an entry agreeing
with c on element, name and keywords. -/
theorem registerComponent_find_agrees (comps : List HComp) (c : HComp) :
    ∃ e, (registerComponent comps c).find? (fun x => x.id == c.id) = some e ∧
      e.element = c.element ∧ e.name = c.name ∧ e.keywords = c.keywords := by
  cases hfind : comps.find? (fun x => x.id == c.id) with
  | none =>
    refine ⟨c, ?_, rfl, rfl, rfl⟩
    rw [registerComponent_append comps c hfind, List.find?_append, hfind,
      List.find?_cons_of_pos _ (by simp)]
    rfl
  | some e =>
    cases hguard : (e.element == c.element && e.name == c.name
        && e.keywords == c.keywords) with
    | true =>
      have h := hguard
      simp only [Bool.and_eq_true, beq_iff_eq] at h
      refine ⟨e, ?_, h.1.1, h.1.2, h.2⟩
      rw [registerComponent_noop comps c e hfind hguard, hfind]
    | false =>
      refine ⟨c, ?_, rfl, rfl, rfl⟩
      rw [registerComponent_replace comps c e hfind hguard]
      exact find?_map_replace comps c (by rw [hfind]; rfl)

/-- C9: register is idempotent — registering a descriptor again, with
id, name, element reference and keywords unchanged (description may
differ: the source's guard ignores it), returns the mapping of the first
call itself, so no downstream invalidation is triggered. -/
theorem registerComponent_idempotent (comps : List HComp) (c c' : HComp)
    (hid : c'.id = c.id) (hname : c'.name = c.name)
    (helem : c'.element = c.element) (hkw : c'.keywords = c.keywords) :
    registerComponent (registerComponent comps c) c' = registerComponent comps c := by
  obtain ⟨e, hfind, he, hn, hk⟩ := registerComponent_find_agrees comps c
  apply registerComponent_noop _ _ e
  · rw [hid]; exact hfind
  · rw [helem, hname, hkw, he, hn, hk]
    simp

/-- Witness for C9 at a concrete registry and descriptor pair differing
only in description. -/
theorem registerComponent_idempotent_witness :
    registerComponent (registerComponent [otherComp] homeTitleComp)
        ⟨"home-title", "Home Title", some "changed", some ["welcome"], 0⟩ =
      registerComponent [otherComp] homeTitleComp :=
  registerComponent_idempotent [otherComp] homeTitleComp
    ⟨"home-title", "Home Title", some "changed", some ["welcome"], 0⟩
    (by decide) (by decide) (by decide) (by decide)

/-! ## C2: the advance transition -/

/-- highlightOp touches only the highlighted set and the expiry timers. -/
theorem highlightOp_proj (s : EngineState) (sel : String) (d : Option Nat) :
    (highlightOp s sel d).storage = s.storage ∧
    (highlightOp s sel d).active = s.active ∧
    (highlightOp s sel d).pending = s.pending ∧
    (highlightOp s sel d).components = s.components ∧
    (highlightOp s sel d).trace = s.trace ∧
    (highlightOp s sel d).currentPath = s.currentPath := by
  unfold highlightOp
  cases d with
  | none => exact ⟨rfl, rfl, rfl, rfl, rfl, rfl⟩
  | some n => by_cases h : n > 0 <;> simp [h]

/-- The highlighted set after highlightOp: the selector is appended
unless already applied. -/
theorem highlightOp_highlighted (s : EngineState) (sel : String) (d : Option Nat) :
    (highlightOp s sel d).highlighted =
      if s.highlighted.contains sel then s.highlighted else s.highlighted ++ [sel] := by
  unfold highlightOp
  cases d with
  | none => rfl
  | some n => by_cases h : n > 0 <;> simp [h]

/-- Step evaluation never touches the active walkthrough or the storage
slot: persistence precedes evaluation in the advance transition. -/
theorem progressStepEval_storage_active (s : EngineState) (b : Bool) (i : Nat)
    (st : WalkthroughStep) :
    (progressStepEval s b i st).storage = s.storage ∧
    (progressStepEval s b i st).active = s.active := by
  unfold progressStepEval
  cases hpage : (st.page.getD "/" != s.currentPath) with
  | true => simp
  | false =>
    cases b <;> cases hw : stepWaitForClick st <;>
      cases hfc : findComponent s.components st.query <;>
        simp [hfc, hw, highlightOp_proj] <;>
        cases hd : durTruthy st.duration <;>
          simp [hd, highlightOp_proj]

/-- Starting from a cleared highlight set, step evaluation can apply at
most the selector of the descriptor the step's query resolves to. -/
theorem progressStepEval_highlighted_sub (s : EngineState) (b : Bool) (i : Nat)
    (st : WalkthroughStep) (h0 : s.highlighted = []) :
    ∀ sel ∈ (progressStepEval s b i st).highlighted,
      ∃ c, findComponent s.components st.query = some c ∧ sel = selectorFor c := by
  intro sel hsel
  unfold progressStepEval at hsel
  cases hpage : (st.page.getD "/" != s.currentPath) with
  | true =>
    rw [hpage] at hsel
    simp [h0] at hsel
  | false =>
    rw [hpage] at hsel
    cases b <;> cases hw : stepWaitForClick st <;>
      cases hfc : findComponent s.components st.query <;>
        simp [hfc, hw, h0, highlightOp_highlighted] at hsel <;>
        first
        | exact ⟨_, rfl, hsel⟩
        | (revert hsel
           cases hd : durTruthy st.duration <;>
             simp [hd, h0, highlightOp_highlighted])

/-- C2: for every active walkthrough, advance clears the applied
highlights and their expiry timers; at the last step it deletes the
persisted slot, fires onComplete (when a callback was supplied) and goes
idle; otherwise it increments the index and writes the updated persisted
subset before evaluating the next step, whose evaluation can at most add
the freshly resolved selector to the cleared highlight set. -/
theorem progressWalkthrough_advance_spec (s : EngineState) (wt : Walkthrough)
    (hact : s.active = some wt) :
    (wt.steps.length ≤ wt.currentStepIndex + 1 →
      (progressWalkthrough s).active = none ∧
      (progressWalkthrough s).storage = none ∧
      (progressWalkthrough s).highlighted = [] ∧
      (progressWalkthrough s).expiryTimers = [] ∧
      (wt.hasOnComplete = true →
        (progressWalkthrough s).trace = s.trace ++ [WEvent.onComplete]) ∧
      (wt.hasOnComplete = false → (progressWalkthrough s).trace = s.trace)) ∧
    (∀ hlt : wt.currentStepIndex + 1 < wt.steps.length,
      (progressWalkthrough s).storage =
        some ⟨wt.id, wt.steps, wt.currentStepIndex + 1⟩ ∧
      (progressWalkthrough s).active =
        some { wt with currentStepIndex := wt.currentStepIndex + 1 } ∧
      ∀ sel ∈ (progressWalkthrough s).highlighted,
        ∃ c, findComponent s.components
            (wt.steps.get ⟨wt.currentStepIndex + 1, hlt⟩).query = some c ∧
          sel = selectorFor c) := by
  constructor
  · intro hlen
    unfold progressWalkthrough
    rw [hact]
    simp only [dif_pos hlen]
    cases hc : wt.hasOnComplete <;> simp [clearAllOp, hc]
  · intro hlt
    have hne : ¬ wt.steps.length ≤ wt.currentStepIndex + 1 := by omega
    unfold progressWalkthrough
    rw [hact]
    simp only [dif_neg hne]
    refine ⟨?_, ?_, ?_⟩
    · exact (progressStepEval_storage_active _ _ _ _).1
    · exact (progressStepEval_storage_active _ _ _ _).2
    · exact progressStepEval_highlighted_sub _ _ _ _ rfl

/-- Witness for C2 at a one-step walkthrough being completed. -/
theorem progressWalkthrough_advance_spec_witness :
    (progressWalkthrough
        ⟨["x"], [("x", 5)], [], [], some ⟨"w4", [⟨"a", none, none, none⟩], 0, true, false⟩,
          some ⟨"w4", [⟨"a", none, none, none⟩], 0⟩, "/", []⟩).active = none ∧
    (progressWalkthrough
        ⟨["x"], [("x", 5)], [], [], some ⟨"w4", [⟨"a", none, none, none⟩], 0, true, false⟩,
          some ⟨"w4", [⟨"a", none, none, none⟩], 0⟩, "/", []⟩).storage = none := by
  have h := (progressWalkthrough_advance_spec
    ⟨["x"], [("x", 5)], [], [], some ⟨"w4", [⟨"a", none, none, none⟩], 0, true, false⟩,
      some ⟨"w4", [⟨"a", none, none, none⟩], 0⟩, "/", []⟩
    ⟨"w4", [⟨"a", none, none, none⟩], 0, true, false⟩ rfl).1 (by decide)
  exact ⟨h.1, h.2.1⟩

/-! ## C3: the persist-then-reload round trip -/

/-- C3: at session bootstrap with a persisted walkthrough whose current
step targets the bootstrap page, the resume effect reconstructs an
active walkthrough with the same id, the same step list and the same
index, with no callbacks, leaving the slot in place; when the target
page differs, the state — in particular the persisted blob — is
untouched and the engine stays idle. -/
theorem resumeFromStorage_roundtrip (s : EngineState) (saved : SavedWalkthrough)
    (hst : s.storage = some saved) (hact : s.active = none)
    (hk : saved.currentStepIndex < saved.steps.length) :
    ((saved.steps.get ⟨saved.currentStepIndex, hk⟩).page.getD "/" = s.currentPath →
      (resumeFromStorage s).active =
        some ⟨saved.id, saved.steps, saved.currentStepIndex, false, false⟩ ∧
      (resumeFromStorage s).storage = some saved) ∧
    ((saved.steps.get ⟨saved.currentStepIndex, hk⟩).page.getD "/" ≠ s.currentPath →
      resumeFromStorage s = s) := by
  unfold resumeFromStorage
  rw [hst, hact]
  simp only [dif_pos hk]
  constructor
  · intro hpage
    rw [if_pos (by simpa using hpage)]
    exact ⟨rfl, rfl⟩
  · intro hpage
    rw [if_neg (by simpa using hpage)]

/-- Witness for C3: resume at step index 1 on the matching page, and a
non-matching bootstrap page leaving the state unchanged. -/
theorem resumeFromStorage_roundtrip_witness :
    (resumeFromStorage
        ⟨[], [], [], [], none,
          some ⟨"w5", [⟨"a", some "/p", none, none⟩, ⟨"b", some "/q", none, none⟩], 1⟩,
          "/q", []⟩).active =
      some ⟨"w5", [⟨"a", some "/p", none, none⟩, ⟨"b", some "/q", none, none⟩], 1,
        false, false⟩ ∧
    resumeFromStorage
        ⟨[], [], [], [], none,
          some ⟨"w5", [⟨"a", some "/p", none, none⟩, ⟨"b", some "/q", none, none⟩], 1⟩,
          "/zz", []⟩ =
      ⟨[], [], [], [], none,
        some ⟨"w5", [⟨"a", some "/p", none, none⟩, ⟨"b", some "/q", none, none⟩], 1⟩,
        "/zz", []⟩ := by
  constructor
  · exact ((resumeFromStorage_roundtrip _
      ⟨"w5", [⟨"a", some "/p", none, none⟩, ⟨"b", some "/q", none, none⟩], 1⟩
      rfl rfl (by decide)).1 (by decide)).1
  · exact (resumeFromStorage_roundtrip _
      ⟨"w5", [⟨"a", some "/p", none, none⟩, ⟨"b", some "/q", none, none⟩], 1⟩
      rfl rfl (by decide)).2 (by decide)

/-! ## C4: resolution failure during start -/

/-- The single step of the C4 scenario, with an unresolvable query. -/
def c4Step : WalkthroughStep := ⟨"nope", none, none, none⟩

/-- The pristine engine state of the C4 scenario: empty registry, at "/". -/
def c4s0 : EngineState := ⟨[], [], [], [], none, none, "/", []⟩

/-- The state after starting the one-step walkthrough on its target page. -/
def c4s1 : EngineState := startWalkthrough c4s0 "w1" [c4Step] false false

/-- The state after the 100ms settle timer fires and resolution fails. -/
def c4s2 : EngineState := firePending c4s1 0

/-- C4 counterexample: starting on step 0's target page with a query that
fails to resolve, the engine merely logs a warning once the settle timer
fires — no timer is pending afterwards (in particular no 1000ms grace
auto-advance), and the walkthrough still sits at step 0, contradicting
the claimed auto-advance past the broken step. -/
theorem startWalkthrough_no_autoadvance_counterexample :
    c4s1.pending = [(100, TimerAction.settle c4Step)] ∧
    c4s2.pending = [] ∧
    c4s2.active = some ⟨"w1", [c4Step], 0, false, false⟩ ∧
    c4s2.trace = [WEvent.warnNotFound "nope"] := by decide

/-- C4 amended: on the target page, start schedules only the 100ms settle
timer; when that timer's body fails to resolve the step's query it logs
a warning and changes nothing else — no grace auto-advance is scheduled.
The 1000ms grace auto-advance on resolution failure exists only in the
advance transition (progressStepEval). -/
theorem startWalkthrough_miss_behavior (s : EngineState) (step : WalkthroughStep)
    (rest : List WalkthroughStep) (newId : String) (hc hs : Bool)
    (hpage : step.page.getD "/" = s.currentPath)
    (hfail : findComponent s.components step.query = none) :
    (startWalkthrough s newId (step :: rest) hc hs).pending =
      s.pending ++ [(100, TimerAction.settle step)] ∧
    settleBody s step = { s with trace := s.trace ++ [WEvent.warnNotFound step.query] } ∧
    (progressStepEval s hs 1 step).pending =
      s.pending ++ [(1000, TimerAction.autoAdvance)] := by
  refine ⟨?_, ?_, ?_⟩
  · unfold startWalkthrough
    cases hact : s.active <;>
      simp [clearAllOp, hact, hpage] <;>
      cases hs <;>
        simp
  · unfold settleBody
    rw [hfail]
  · unfold progressStepEval
    rw [if_neg (by simp [hpage])]
    cases hs <;> simp [hfail]

/-- Witness for the amended C4 at the concrete scenario state. -/
theorem startWalkthrough_miss_behavior_witness :
    c4s1.pending = [(100, TimerAction.settle c4Step)] ∧
    settleBody c4s0 c4Step =
      { c4s0 with trace := c4s0.trace ++ [WEvent.warnNotFound c4Step.query] } := by
  have h := startWalkthrough_miss_behavior c4s0 c4Step [] "w1" false false
    (by decide) (by decide)
  exact ⟨h.1, h.2.1⟩

/-! ## C8: timers surviving stopWalkthrough -/

/-- The registered component of the C8 scenario. -/
def c8Comp : HComp := ⟨"btn", "Button", none, none, 0⟩

/-- The single step of the C8 scenario, resolving to c8Comp. -/
def c8Step : WalkthroughStep := ⟨"btn", none, none, none⟩

/-- The initial engine state of the C8 scenario. -/
def c8s0 : EngineState := ⟨[], [], [], [c8Comp], none, none, "/", []⟩

/-- After starting the walkthrough on its target page: the 100ms settle
timer is pending. -/
def c8s1 : EngineState := startWalkthrough c8s0 "w1" [c8Step] false false

/-- After stopping the walkthrough before the settle timer fired. -/
def c8s2 : EngineState := stopWalkthrough c8s1 none

/-- After the stale settle timer fires post-stop. -/
def c8s3 : EngineState := firePending c8s2 0

/-- C8: stopping the walkthrough cancels only the highlight auto-expiry
timers of the timeouts map; the untracked settle timer scheduled by
start survives the stop and, when it fires, still applies the stopped
tour's highlight — refuting the claim that no previously scheduled timer
can apply a highlight after stop. -/
theorem stopWalkthrough_stale_settle_timer :
    c8s2.active = none ∧ c8s2.storage = none ∧
    c8s2.highlighted = [] ∧ c8s2.expiryTimers = [] ∧
    c8s2.pending = [(100, TimerAction.settle c8Step)] ∧
    c8s3.highlighted = [selectorFor c8Comp] := by decide

/-! ## C5: the error event during streaming -/

/-- The C5 failing stream: an error event followed by further events. -/
def c5Events : List SSEEvent :=
  [SSEEvent.errorEvt (some "boom"), SSEEvent.textDelta "after",
   SSEEvent.complete (some "s1")]

/-- C5: the error case fires onError and throws, but the throw lands in
the enclosing JSON-parse catch, which logs a parse warning and keeps the
loop alive — so the stream goes on consuming the following events and
finalizes a normal message from the post-error delta, instead of
terminating abnormally as the spec requires. -/
theorem handleSSEStream_error_continues :
    processEvent ⟨"", none, [], []⟩ (SSEEvent.errorEvt (some "boom")) =
      ⟨"", none, [], [StreamCB.onError "boom", StreamCB.warnParseFailure]⟩ ∧
    (handleSSEStream c5Events).1.calls =
      [StreamCB.onError "boom", StreamCB.warnParseFailure,
       StreamCB.onTextDelta "after", StreamCB.onComplete (some "s1")] ∧
    (handleSSEStream c5Events).2 = "after" ∧
    (handleSSEStream c5Events).1.sessionId = some "s1" := by decide

/-! ## C6: inline ACTIONS control blocks -/

/-- The C6 streamed text carrying an inline control block. -/
def c6Text : String := "Hello [ACTIONS] navigate to tasks [/ACTIONS] bye"

/-- The C6 stream: one delta with an embedded block, then completion. -/
def c6Events : List SSEEvent := [SSEEvent.textDelta c6Text, SSEEvent.complete none]

/-- A configuration with every action handler supplied. -/
def allHandlers : ActionHandlersCfg := ⟨true, true, true, true⟩

/-- C6 counterexample: the embedded block is stripped from the displayed
content, but the client parses nothing out of it — the stream's action
list stays empty and no action is dispatched, refuting the claim that
the block's body is parsed into the action list and produces a
dispatched Navigate action. -/
theorem actionsBlock_not_parsed_counterexample :
    stripActionsBlocks (handleSSEStream c6Events).1.fullContent = "Hello  bye" ∧
    (handleSSEStream c6Events).1.actions = [] ∧
    clientStreamDispatches (some allHandlers) c6Events = [] := by decide

/-- The accumulated action list of a stream is exactly the concatenation
of the payloads of its actions events. -/
theorem foldl_processEvent_actions (events : List SSEEvent) (st : StreamState) :
    (events.foldl processEvent st).actions =
      st.actions ++ (collectActionsEvents events).flatMap (fun l => l) := by
  induction events generalizing st with
  | nil => simp [collectActionsEvents]
  | cons e es ih =>
    rw [List.foldl_cons, ih]
    cases e <;>
      first
      | (simp [processEvent, runSwitch, collectActionsEvents]; done)
      | (rename_i x
         cases x <;> simp [processEvent, runSwitch, collectActionsEvents])

/-- C6 amended: inline control blocks are stripped from the displayed
content, but their bodies are not parsed by the client — the action list
comes only from dedicated actions events, and an actions event carrying
a navigate action dispatches it through the navigate handler. -/
theorem actionsBlock_strip_dispatch (events : List SSEEvent)
    (cfg : ActionHandlersCfg) (p : String) :
    (handleSSEStream events).1.actions =
      (collectActionsEvents events).flatMap (fun l => l) ∧
    (cfg.navigate = true →
      clientStreamDispatches (some cfg)
          [SSEEvent.actionsEvt (some [AgentAction.navigate (some p)])] =
        [Dispatch.navigateHandler p]) ∧
    stripActionsBlocks "Sure. [ACTIONS] navigate to p [/ACTIONS] Done." =
      "Sure.  Done." := by
  refine ⟨?_, ?_, ?_⟩
  · unfold handleSSEStream
    simpa using foldl_processEvent_actions events ⟨"", none, [], []⟩
  · intro hnav
    simp [clientStreamDispatches, collectActionsEvents, dispatchActions,
      dispatchAction, hnav]
  · decide

/-- Witness for the amended C6: a navigate action arriving in an actions
event is dispatched to the navigate handler. -/
theorem actionsBlock_strip_dispatch_witness :
    clientStreamDispatches (some allHandlers)
        [SSEEvent.actionsEvt (some [AgentAction.navigate (some "/tasks")])] =
      [Dispatch.navigateHandler "/tasks"] :=
  (actionsBlock_strip_dispatch [] allHandlers "/tasks").2.1 rfl

/-! ## C7: retry only on network failure -/

/-- A fetch environment always resolving to an HTTP 500 response. -/
def env500 : Nat → FetchOutcome := fun _ => FetchOutcome.response false 500

/-- C7 counterexample: with retry configured for 3 attempts, a non-2xx
response is surfaced after exactly one fetch call, with no backoff delay
— non-2xx responses are not retried. -/
theorem fetchWithRetry_non2xx_counterexample :
    (fetchWithRetry env500 3 1000).calls = 1 ∧
    (fetchWithRetry env500 3 1000).delays = [] ∧
    (sendMessageDirectTransport env500 3 1000).1 =
      Except.error (DirectError.apiStatus 500) := by
  simp [fetchWithRetry, fetchWithRetryAux, sendMessageDirectTransport, env500]

/-- Closed form of the retrying fetch when every attempt from k on (up
to the attempt limit) rejects with a network error. -/
theorem fetchWithRetryAux_all_net (env : Nat → FetchOutcome) (a b : Nat) (msg : String) :
    ∀ n k, 1 ≤ k → a = k + n →
      (∀ i, k ≤ i → i ≤ a → env i = FetchOutcome.netError msg) →
      fetchWithRetryAux env a b k =
        ⟨Except.error msg, n + 1, (List.range n).map (fun j => b * 2 ^ (k - 1 + j))⟩ := by
  intro n
  induction n with
  | zero =>
    intro k hk ha henv
    unfold fetchWithRetryAux
    rw [henv k (le_refl k) (by omega)]
    simp only [dif_pos (show a ≤ k by omega)]
    simp
  | succ m ih =>
    intro k hk ha henv
    unfold fetchWithRetryAux
    rw [henv k (le_refl k) (by omega)]
    simp only [dif_neg (show ¬ a ≤ k by omega)]
    rw [ih (k + 1) (by omega) (by omega) (fun i h1 h2 => henv i (by omega) h2)]
    have hdel : (List.range (m + 1)).map (fun j => b * 2 ^ (k - 1 + j)) =
        b * 2 ^ (k - 1) :: (List.range m).map (fun j => b * 2 ^ (k + 1 - 1 + j)) := by
      rw [List.range_succ_eq_map, List.map_cons, List.map_map]
      congr 1
      apply List.map_congr_left
      intro j hj
      show b * 2 ^ (k - 1 + (j + 1)) = b * 2 ^ (k + 1 - 1 + j)
      have he : k - 1 + (j + 1) = k + 1 - 1 + j := by omega
      rw [he]
    rw [hdel]

/-- C7 amended: only network failures (fetch rejections) are retried,
with exponential backoff delays of backoff times 2 to the attempt-1, up
to the configured attempt count; a resolved response — of any status —
is returned by the first fetch call that yields one, and a non-2xx
response is surfaced as an Agent API error without any retry. -/
theorem fetchWithRetry_network_only (env : Nat → FetchOutcome) (a b : Nat) :
    (∀ ok status, env 1 = FetchOutcome.response ok status →
      fetchWithRetry env a b = ⟨Except.ok (ok, status), 1, []⟩ ∧
      (ok = false →
        (sendMessageDirectTransport env a b).1 =
          Except.error (DirectError.apiStatus status))) ∧
    (∀ msg, 0 < a →
      (∀ i, 1 ≤ i → i ≤ a → env i = FetchOutcome.netError msg) →
      fetchWithRetry env a b =
        ⟨Except.error msg, a,
          (List.range (a - 1)).map
            (fun j => (if b == 0 then 1000 else b) * 2 ^ j)⟩) := by
  constructor
  · intro ok status h
    have h1 : fetchWithRetry env a b = ⟨Except.ok (ok, status), 1, []⟩ := by
      unfold fetchWithRetry fetchWithRetryAux
      rw [h]
    refine ⟨h1, ?_⟩
    intro hok
    unfold sendMessageDirectTransport
    rw [h1, hok]
    simp
  · intro msg ha henv
    unfold fetchWithRetry
    have hz : a ≠ 0 := by omega
    have ha' : (if a == 0 then 1 else a) = a := by simp [hz]
    rw [ha']
    rw [fetchWithRetryAux_all_net env a (if b == 0 then 1000 else b) msg (a - 1) 1
      (le_refl 1) (by omega) henv]
    have hcalls : a - 1 + 1 = a := by omega
    simp [hcalls]

/-- Witness for the amended C7 at the always-500 environment. -/
theorem fetchWithRetry_network_only_witness :
    fetchWithRetry env500 3 1000 = ⟨Except.ok (false, 500), 1, []⟩ ∧
    (sendMessageDirectTransport env500 3 1000).1 =
      Except.error (DirectError.apiStatus 500) := by
  have h := (fetchWithRetry_network_only env500 3 1000).1 false 500 rfl
  exact ⟨h.1, h.2 rfl⟩

end TaskMapr
